import Mathlib

/-!
Verification of the AliceVision sequential structure-from-motion core:
a shallow embedding of the scene model (`SfMData`) and of the sequential
reconstruction engine (`ReconstructionEngine_sequentialSfM`), with theorems
about pose/intrinsic validity, rig pose composition, pose erasure, the
bundle-adjustment strategy selection, resection gating, outlier removal,
the incremental reconstruction loop and initial pair seeding.

Maps (`HashMap<IndexT, T>` / `std::map<IndexT, T>`) are embedded as
association lists with `List.lookup`; a `std::map::at` that can throw is
embedded as an `Option`-valued lookup; a thrown exception is `Except.error`.
Machine indices (`IndexT` = `uint32_t`) are embedded as `Nat`, with the
`UndefinedIndexT` sentinel being `2^32 - 1`.
-/

namespace AV

/-- `IndexT` — opaque unsigned identifier (`uint32_t` in `types.hpp`). -/
abbrev IndexT := Nat

/-- `UndefinedIndexT` — the reserved sentinel, `std::numeric_limits<uint32_t>::max()`. -/
def UndefinedIndexT : IndexT := 4294967295

/-- 3×3 matrix of rationals (embedding of a rotation matrix). -/
abbrev Mat3 := Fin 3 → Fin 3 → ℚ

/-- 3-vector of rationals. -/
abbrev Vec3 := Fin 3 → ℚ

/-- Explicit 3×3 matrix product. -/
def mat3mul (A B : Mat3) : Mat3 :=
  fun i j => A i 0 * B 0 j + A i 1 * B 1 j + A i 2 * B 2 j

/-- Explicit matrix–vector product. -/
def mat3mulVec (A : Mat3) (x : Vec3) : Vec3 :=
  fun i => A i 0 * x 0 + A i 1 * x 1 + A i 2 * x 2

/-- Matrix transpose. -/
def mat3transpose (A : Mat3) : Mat3 := fun i j => A j i

/-- Identity 3×3 matrix. -/
def mat3id : Mat3 := fun i j => if i = j then 1 else 0

/-- Componentwise vector sum. -/
def vec3add (x y : Vec3) : Vec3 := fun i => x i + y i

/-- Componentwise vector difference. -/
def vec3sub (x y : Vec3) : Vec3 := fun i => x i - y i

/-- Modelled from the spec: a `Pose3` is "rotation + translation"
(`geometry/Pose3.hpp` is not under `src/`); stored as a rotation and a
camera center, the convention fixed throughout. -/
structure Pose3 where
  rotation : Mat3
  center : Vec3

instance : DecidableEq Pose3 := fun a b =>
  decidable_of_iff (a.rotation = b.rotation ∧ a.center = b.center)
    (by cases a; cases b; simp)

/-- Modelled from the spec: composition of two poses,
"the effective pose of a rig view is the composition of rig pose and
sub-pose" (`Pose3::operator*` is not under `src/`). `composePose q p`
embeds the C++ expression `q * p`. -/
def composePose (q p : Pose3) : Pose3 :=
  { rotation := mat3mul q.rotation p.rotation
    center := vec3add p.center (mat3mulVec (mat3transpose p.rotation) q.center) }

/-- The identity pose: rotation = identity, translation = 0. -/
def idPose : Pose3 := { rotation := mat3id, center := fun _ => 0 }

/-- `ERigSubPoseStatus` — status of a rig sub-pose (`Rig.hpp` declares
`UNINITIALIZED` and estimated states; used through `SfMData.hpp`). -/
inductive ERigSubPoseStatus where
  | UNINITIALIZED
  | ESTIMATED
  | CONSTANT
deriving DecidableEq, Repr

/-- Modelled from the spec: a rig sub-pose is a pose together with a
status (uninitialized/estimated); `Rig.hpp` is not under `src/`. -/
structure RigSubPose where
  status : ERigSubPoseStatus
  pose : Pose3
deriving DecidableEq

/-- Modelled from the spec: a `Rig` owns a set of per-camera sub-poses,
indexed by sub-pose id; `Rig.hpp` is not under `src/`. -/
structure Rig where
  subPoses : List RigSubPose
deriving DecidableEq

/-- `Rig::getSubPose(index)` — indexed access into the sub-pose vector;
out-of-range access (which throws in C++) is `none`. -/
def Rig.getSubPose (r : Rig) (index : IndexT) : Option RigSubPose :=
  r.subPoses.get? index

/-- Modelled from the spec: a `View` holds its identifier, an intrinsic
identifier, a pose identifier and optional rig + sub-pose identifiers
(`View.hpp` is not under `src/`; `UndefinedIndexT` denotes "no value"). -/
structure View where
  viewId : IndexT
  intrinsicId : IndexT
  poseId : IndexT
  rigId : IndexT
  subPoseId : IndexT
deriving DecidableEq, Repr

/-- `View::getIntrinsicId`. -/
def View.getIntrinsicId (v : View) : IndexT := v.intrinsicId

/-- `View::getPoseId`. -/
def View.getPoseId (v : View) : IndexT := v.poseId

/-- `View::getRigId`. -/
def View.getRigId (v : View) : IndexT := v.rigId

/-- `View::getSubPoseId`. -/
def View.getSubPoseId (v : View) : IndexT := v.subPoseId

/-- Modelled from the spec: `View::isPartOfRig` — the view is part of a
rig when its rig identifier is defined. -/
def View.isPartOfRig (v : View) : Bool := v.rigId ≠ UndefinedIndexT

/-- Intrinsic camera parameters; their content is irrelevant to the
claims (`IntrinsicBase` is not under `src/`), only their presence in the
scene's intrinsics collection matters. -/
abbrev Intrinsic := Nat

/-- `SfMData` — the scene model: views, intrinsics, structure, poses and
rigs, each an identifier-keyed collection. -/
structure SfMData where
  views : List (IndexT × View)
  intrinsics : List (IndexT × Intrinsic)
  poses : List (IndexT × Pose3)
  rigs : List (IndexT × Rig)
deriving DecidableEq

namespace SfMData

/-- `SfMData::getRigSubPose` — `_rigs.at(view.getRigId()).getSubPose(view.getSubPoseId())`;
a failing `at` (throw) is `none`. -/
def getRigSubPose (s : SfMData) (v : View) : Option RigSubPose :=
  match s.rigs.lookup v.getRigId with
  | none => none
  | some rig => rig.getSubPose v.getSubPoseId

/-- `SfMData::IsPoseAndIntrinsicDefined(const View*)` — `none` is the
C++ exception escaping from `getRigSubPose` (`std::map::at` on a missing
rig); the argument is the possibly-null view pointer. The tests are
performed in the short-circuit order of the source. -/
def IsPoseAndIntrinsicDefined (s : SfMData) (view : Option View) : Option Bool :=
  match view with
  | none => some false
  | some v =>
    if v.getIntrinsicId = UndefinedIndexT then some false
    else if v.getPoseId = UndefinedIndexT then some false
    else if v.isPartOfRig then
      match s.getRigSubPose v with
      | none => none
      | some sp =>
        if sp.status = ERigSubPoseStatus.UNINITIALIZED then some false
        else some ((s.intrinsics.lookup v.getIntrinsicId).isSome &&
                   (s.poses.lookup v.getPoseId).isSome)
    else some ((s.intrinsics.lookup v.getIntrinsicId).isSome &&
               (s.poses.lookup v.getPoseId).isSome)

/-- `SfMData::existsPose` — `_poses.find(view.getPoseId()) != _poses.end()`. -/
def existsPose (s : SfMData) (v : View) : Bool :=
  (s.poses.lookup v.getPoseId).isSome

/-- `SfMData::getPose` — the pose of a view; for a rig view, the rig
pose composed with the camera sub-pose (`subPose * rigPose`); `none` is
a C++ exception from a failing `at`. -/
def getPose (s : SfMData) (v : View) : Option Pose3 :=
  if v.isPartOfRig = false then
    s.poses.lookup v.getPoseId
  else
    match s.poses.lookup v.getPoseId, s.getRigSubPose v with
    | some rigPose, some sp => some (composePose sp.pose rigPose)
    | _, _ => none

/-- Replace-or-append insertion into an association list, the effect of
`map[key] = value`. -/
def insertAssoc (k : IndexT) (p : Pose3) (l : List (IndexT × Pose3)) :
    List (IndexT × Pose3) :=
  (k, p) :: l.eraseP (fun kv => kv.1 = k)

/-- `SfMData::setAbsolutePose` — `_poses[poseId] = pose`. -/
def setAbsolutePose (s : SfMData) (poseId : IndexT) (pose : Pose3) : SfMData :=
  { s with poses := insertAssoc poseId pose s.poses }

/-- `SfMData::erasePose` — erases the found entry, or throws
`std::out_of_range` when no entry with the given id exists. -/
def erasePose (s : SfMData) (poseId : IndexT) : Except String SfMData :=
  match s.poses.lookup poseId with
  | some _ => Except.ok { s with poses := s.poses.eraseP (fun kv => kv.1 = poseId) }
  | none => Except.error ("Can't erase unfind pose " ++ toString poseId)

end SfMData

/-- Modelled from the spec: the mutable state of
`LocalBundleAdjustmentData` that the engine setters touch — the
graph-distance limit of the local strategy
(`LocalBundleAdjustmentData.hpp` is not under `src/`; §4.7 treats the
distance bound as tunable policy). -/
structure LocalBundleAdjustmentData where
  graphDistanceLimit : Nat
deriving DecidableEq, Repr

/-- `LocalBundleAdjustmentData::setGraphDistanceLimit`. -/
def LocalBundleAdjustmentData.setGraphDistanceLimit
    (d : LocalBundleAdjustmentData) (distance : Nat) : LocalBundleAdjustmentData :=
  { d with graphDistanceLimit := distance }

/-- Modelled from the spec: the graph-distance limit a freshly
constructed `LocalBundleAdjustmentData` carries (its constructor is not
under `src/`; §9 calls it tunable policy, the exact value is irrelevant
to the claims). -/
def defaultGraphDistanceLimit : Nat := 1

/-- The configuration state of `ReconstructionEngine_sequentialSfM`:
its parameter fields with the default member initializers of the header. -/
structure Engine where
  minInputTrackLength : Nat
  minTrackLength : Nat
  minPointsPerPose : Nat
  uselocalBundleAdjustment : Bool
  minNbObservationsForTriangulation : Nat
  minAngleForTriangulation : ℚ
  localBA_data : Option LocalBundleAdjustmentData
deriving DecidableEq, Repr

/-- A freshly constructed engine: every parameter field holds its
default member initializer from the header
(`_minInputTrackLength = 2`, `_minTrackLength = 2`,
`_minPointsPerPose = 30`, `_uselocalBundleAdjustment = false`,
`_minNbObservationsForTriangulation = 2`,
`_minAngleForTriangulation = 3.0`, `_localBA_data` unset). -/
def mkEngine : Engine :=
  { minInputTrackLength := 2
    minTrackLength := 2
    minPointsPerPose := 30
    uselocalBundleAdjustment := false
    minNbObservationsForTriangulation := 2
    minAngleForTriangulation := 3
    localBA_data := none }

/-- `setUseLocalBundleAdjustmentStrategy` — records the flag and, when
enabling, installs a fresh `LocalBundleAdjustmentData` (the folder
bookkeeping of the source is I/O and not part of the engine state). -/
def setUseLocalBundleAdjustmentStrategy (e : Engine) (v : Bool) : Engine :=
  { e with
    uselocalBundleAdjustment := v
    localBA_data :=
      if v then some { graphDistanceLimit := defaultGraphDistanceLimit }
      else e.localBA_data }

/-- `setLocalBundleAdjustmentGraphDistance` — forwards the distance to
the local-BA data only when `_uselocalBundleAdjustment` is set;
otherwise the body is skipped entirely. -/
def setLocalBundleAdjustmentGraphDistance (e : Engine) (distance : Nat) : Engine :=
  if e.uselocalBundleAdjustment then
    { e with localBA_data :=
        e.localBA_data.map (fun d => d.setGraphDistanceLimit distance) }
  else e

/-- The two bundle-adjustment strategies of §4.7. -/
inductive BAStrategy where
  | localBA
  | globalBA
deriving DecidableEq, Repr

/-- Modelled from the spec: which bundle-adjustment strategy the
Iterating state runs after a triangulation step — the local
(graph-distance-bounded) one exactly when the engine's local-BA flag is
set, the global one otherwise (the loop body `.cpp` is not under
`src/`; the header documents `_uselocalBundleAdjustment` as the switch). -/
def iterationBAStrategy (e : Engine) : BAStrategy :=
  if e.uselocalBundleAdjustment then BAStrategy.localBA else BAStrategy.globalBA

/-- Modelled from the spec: `computeResection` for one view — robust
pose estimation is attempted only when the view has at least
`minPts` 2D–3D correspondences; `ransac` abstracts the RANSAC-family
estimator, `none` covering both "no model with enough inliers" and a
degenerate inlier configuration (the `.cpp` is not under `src/`). -/
def computeResection (minPts : Nat) (nbCorresp : IndexT → Nat)
    (ransac : IndexT → Option Pose3) (viewId : IndexT) : Option Pose3 :=
  if nbCorresp viewId < minPts then none else ransac viewId

/-- Modelled from the spec: how the remaining-candidate pool evolves
after one resection attempt — a view leaves the pool only on success;
every failure defers it, leaving the pool unchanged (§4.5, §7b). -/
def updatePoolAfterResection (res : Option Pose3) (pool : List IndexT)
    (viewId : IndexT) : List IndexT :=
  match res with
  | some _ => pool.erase viewId
  | none => pool

/-- Modelled from the spec: the depth of a 3D point in front of a view's
pose — the third camera-frame coordinate `R * (X - C)` (the cheirality
test of the `.cpp` is not under `src/`). -/
def depthOf (p : Pose3) (pt : Vec3) : ℚ :=
  mat3mulVec p.rotation (vec3sub pt p.center) 2

/-- Modelled from the spec: `checkChieralities` — true iff the 3D point
has positive depth with respect to every view of the given set; a view
without a resolvable pose fails the check (the `.cpp` is not under `src/`). -/
def checkChieralities (scene : SfMData) (pt : Vec3) (viewsId : List IndexT) : Bool :=
  viewsId.all fun vid =>
    match scene.views.lookup vid with
    | none => false
    | some v =>
      match scene.getPose v with
      | none => false
      | some pose => decide (0 < depthOf pose pt)

/-- Modelled from the spec: `checkAngles` — true iff some pair of two
distinct views of the set subtends a triangulation angle of at least
`kMinAngle`; `angle` abstracts the euclidean ray-angle computation of
the `.cpp`, which is not under `src/`. -/
def checkAngles (angle : IndexT → IndexT → ℚ) (viewsId : List IndexT)
    (kMinAngle : ℚ) : Bool :=
  viewsId.any fun a => viewsId.any fun b => a ≠ b && decide (kMinAngle ≤ angle a b)

/-- A candidate 3D point produced by the robust multi-view solver for a
track: the euclidean point, the contributing views, and whether the
LO-RANSAC solve itself succeeded. -/
structure TriCandidate where
  pt : Vec3
  viewsId : List IndexT
  robustOk : Bool
deriving DecidableEq

/-- Modelled from the spec: the acceptance test of
`triangulateMultiViews_LORANSAC` — a candidate becomes a landmark only
when the robust solve succeeded and both geometric gates (cheirality and
minimum triangulation angle) pass (the `.cpp` is not under `src/`). -/
def acceptCandidate (scene : SfMData) (angle : IndexT → IndexT → ℚ)
    (kMinAngle : ℚ) (c : TriCandidate) : Bool :=
  c.robustOk && checkChieralities scene c.pt c.viewsId &&
    checkAngles angle c.viewsId kMinAngle

/-- Modelled from the spec: the set of candidates the triangulation step
adds as landmarks — exactly those passing `acceptCandidate`; the rest
are not added (the `.cpp` is not under `src/`). -/
def triangulateAccepted (scene : SfMData) (angle : IndexT → IndexT → ℚ)
    (kMinAngle : ℚ) (cands : List TriCandidate) : List TriCandidate :=
  cands.filter (acceptCandidate scene angle kMinAngle)

/-- A landmark as the outlier filter sees it: a 3D point and its
per-view 2D observations, keyed by view id. -/
structure Landmark where
  X : Vec3
  observations : List (IndexT × Vec3)
deriving DecidableEq

/-- Modelled from the spec: drop from one landmark the observations
whose reprojection residual exceeds the precision threshold; `residual`
abstracts the reprojection error of observation `(lmId, viewId)`, fixed
across the pass because the filter mutates neither poses nor points
(`removeOutliers`'s `.cpp` is not under `src/`). -/
def filterLandmarkObs (residual : IndexT → IndexT → ℚ) (precision : ℚ)
    (lmId : IndexT) (lm : Landmark) : Landmark :=
  { lm with observations :=
      lm.observations.filter (fun ov => decide (residual lmId ov.1 ≤ precision)) }

/-- Modelled from the spec: a landmark survives the angular/count gate
when its remaining observing views still contain a pair subtending at
least the minimum angle and the observation count is at least the
minimum. -/
def landmarkKept (angle : IndexT → IndexT → ℚ) (minAngle : ℚ) (minObs : Nat)
    (lm : Landmark) : Bool :=
  checkAngles angle (lm.observations.map Prod.fst) minAngle &&
    decide (minObs ≤ lm.observations.length)

/-- Total number of observations over a landmark collection. -/
def totalObs (lms : List (IndexT × Landmark)) : Nat :=
  (lms.map (fun kl => kl.2.observations.length)).sum

/-- Modelled from the spec: `removeOutliers` — first removes the
observations whose residual exceeds the precision threshold, then the
landmarks whose angle falls below the minimum or whose observation
count dropped below the minimum; returns the new structure and the
number of removed outliers (observations plus landmarks). -/
def removeOutliers (residual angle : IndexT → IndexT → ℚ)
    (precision minAngle : ℚ) (minObs : Nat)
    (lms : List (IndexT × Landmark)) : List (IndexT × Landmark) × Nat :=
  let trimmed := lms.map (fun kl => (kl.1, filterLandmarkObs residual precision kl.1 kl.2))
  let kept := trimmed.filter (fun kl => landmarkKept angle minAngle minObs kl.2)
  (kept, (totalObs lms - totalObs trimmed) + (trimmed.length - kept.length))

/-- The state of the incremental reconstruction loop: the views already
reconstructed and the remaining candidate view ids. -/
structure LoopState where
  reconstructed : List IndexT
  remaining : List IndexT
deriving DecidableEq, Repr

/-- Modelled from the spec: the views one iteration of the Iterating
state succeeds in posing — `resect` abstracts an entire pass
(next-best-view selection, the independent resections and the merge);
only distinct views of the remaining pool can be added (§4.9). -/
def iterAdded (resect : LoopState → List IndexT) (st : LoopState) : List IndexT :=
  ((resect st).filter (fun v => decide (v ∈ st.remaining))).dedup

/-- Modelled from the spec: applying one iteration's successful
resections — the new views are appended to the reconstructed set and
leave the remaining pool. -/
def iterApply (resect : LoopState → List IndexT) (st : LoopState) : LoopState :=
  let a := iterAdded resect st
  { reconstructed := st.reconstructed ++ a
    remaining := st.remaining.filter (fun v => decide (v ∉ a)) }

/-- Modelled from the spec: the fuel-indexed reconstruction loop — each
iteration either adds at least one new pose or ends the loop; returns
the number of iterations run (the terminal zero-add pass included) and
the final state (`incrementalReconstruction`'s `.cpp` is not under
`src/`). -/
def loopIter (resect : LoopState → List IndexT) :
    Nat → LoopState → Nat × LoopState
  | 0, st => (0, st)
  | fuel + 1, st =>
    if iterAdded resect st = [] then (1, st)
    else
      let r := loopIter resect fuel (iterApply resect st)
      (r.1 + 1, r.2)

/-- Modelled from the spec: `incrementalReconstruction` — the loop run
with enough fuel to reach the zero-add fixpoint (one unit per remaining
view plus the terminal pass). -/
def incrementalReconstruction (resect : LoopState → List IndexT)
    (st : LoopState) : Nat × LoopState :=
  loopIter resect (st.remaining.length + 1) st

/-- An initial image pair. -/
abbrev Pair := IndexT × IndexT

/-- Modelled from the spec: `makeInitialPair3D` — `relPose` abstracts
the robust two-view relative-pose estimation together with the validity
of the triangulated initial structure (`none` = the pair fails); on
success the seed scene fixes the first view's pose at the identity and
sets the second view's pose to the estimated relative pose (the `.cpp`
is not under `src/`). -/
def makeInitialPair3D (relPose : Pair → Option Pose3) (scene : SfMData)
    (p : Pair) : Option SfMData :=
  match relPose p with
  | none => none
  | some rel =>
    some ((scene.setAbsolutePose p.1 idPose).setAbsolutePose p.2 rel)

/-- Modelled from the spec: `createInitialReconstruction` — tries the
candidate pairs in the given (descending-score) order and seeds the
reconstruction with the first pair that yields a valid initial 3D
structure (the `.cpp` is not under `src/`). -/
def createInitialReconstruction (relPose : Pair → Option Pose3)
    (scene : SfMData) : List Pair → Option (Pair × SfMData)
  | [] => none
  | p :: rest =>
    match makeInitialPair3D relPose scene p with
    | some s => some (p, s)
    | none => createInitialReconstruction relPose scene rest

/-! Concrete scenes and parameters used to instantiate the theorems. -/

/-- A concrete rig pose: identity rotation, center at the origin. -/
def poseW1 : Pose3 := { rotation := mat3id, center := fun _ => 0 }

/-- A concrete sub-pose / relative pose: identity rotation, center at
`(1, 0, 0)`. -/
def poseW2 : Pose3 := { rotation := mat3id, center := fun i => if i = 0 then 1 else 0 }

/-- A concrete estimated rig sub-pose. -/
def spW : RigSubPose := { status := ERigSubPoseStatus.ESTIMATED, pose := poseW2 }

/-- A concrete one-camera rig. -/
def rigW : Rig := { subPoses := [spW] }

/-- A concrete rig view: view 1, intrinsic 0, pose 10, rig 0, sub-pose 0. -/
def viewW : View :=
  { viewId := 1, intrinsicId := 0, poseId := 10, rigId := 0, subPoseId := 0 }

/-- A concrete scene holding the rig view, its intrinsic, its rig pose
and its rig. -/
def sceneW : SfMData :=
  { views := [(1, viewW)]
    intrinsics := [(0, 0)]
    poses := [(10, poseW1)]
    rigs := [(0, rigW)] }

/-- The empty scene. -/
def sceneEmpty : SfMData := { views := [], intrinsics := [], poses := [], rigs := [] }

/-- A concrete resection pass that succeeds on every remaining view. -/
def resectW : LoopState → List IndexT := fun st => st.remaining

/-- A concrete loop state: one reconstructed view, two remaining. -/
def stW : LoopState := { reconstructed := [0], remaining := [1, 2] }

/-- A concrete relative-pose estimator succeeding only on the pair `(1, 2)`. -/
def relPoseW : Pair → Option Pose3 :=
  fun q => if q = ((1 : IndexT), (2 : IndexT)) then some poseW2 else none

/-- Concrete initial-pair candidates in descending score order; the
first fails, the second succeeds. -/
def csW : List Pair := [(3, 4), (1, 2)]

/-- The seeded scene obtained from the pair `(1, 2)`. -/
def seedW : SfMData := (sceneEmpty.setAbsolutePose 1 idPose).setAbsolutePose 2 poseW2

/-- A concrete correspondence count below the resection minimum. -/
def nbCorrespW : IndexT → Nat := fun _ => 5

/-- A concrete RANSAC estimator that never finds a model. -/
def ransacW : IndexT → Option Pose3 := fun _ => none

/-! Helper lemmas about association-list lookup. -/

theorem lookup_eq_none_of_not_mem_keys {α : Type} (l : List (IndexT × α)) (k : IndexT)
    (h : k ∉ l.map Prod.fst) : l.lookup k = none := by
  induction l with
  | nil => rfl
  | cons a t ih =>
    obtain ⟨k1, v1⟩ := a
    simp only [List.map_cons, List.mem_cons, not_or] at h
    have hb : (k == k1) = false := beq_eq_false_iff_ne.mpr h.1
    simp [List.lookup, hb, ih h.2]

theorem lookup_eraseP_ne {α : Type} (l : List (IndexT × α)) (k k' : IndexT)
    (h : k' ≠ k) :
    (l.eraseP (fun kv => decide (kv.1 = k))).lookup k' = l.lookup k' := by
  induction l with
  | nil => rfl
  | cons a t ih =>
    by_cases ha : a.1 = k
    · rw [List.eraseP_cons_of_pos (by simpa using ha)]
      obtain ⟨k1, v1⟩ := a
      simp only at ha
      subst ha
      have hb : (k' == k1) = false := beq_eq_false_iff_ne.mpr h
      simp [List.lookup, hb]
    · rw [List.eraseP_cons_of_neg (by simpa using ha)]
      obtain ⟨k1, v1⟩ := a
      by_cases hk : k' = k1
      · simp [List.lookup, hk]
      · have hb : (k' == k1) = false := beq_eq_false_iff_ne.mpr hk
        simp [List.lookup, hb, ih]

theorem lookup_eraseP_self {α : Type} (l : List (IndexT × α)) (k : IndexT)
    (hnd : (l.map Prod.fst).Nodup) :
    (l.eraseP (fun kv => decide (kv.1 = k))).lookup k = none := by
  induction l with
  | nil => rfl
  | cons a t ih =>
    simp only [List.map_cons, List.nodup_cons] at hnd
    by_cases ha : a.1 = k
    · rw [List.eraseP_cons_of_pos (by simpa using ha)]
      exact lookup_eq_none_of_not_mem_keys t k (ha ▸ hnd.1)
    · rw [List.eraseP_cons_of_neg (by simpa using ha)]
      obtain ⟨k1, v1⟩ := a
      simp only at ha
      have hb : (k == k1) = false := beq_eq_false_iff_ne.mpr (fun hkk => ha hkk.symm)
      simp [List.lookup, hb, ih hnd.2]

/-! Theorems settling the claims. -/

/-- C1: `IsPoseAndIntrinsicDefined` returns true exactly when the view
pointer is non-null, the intrinsic id is defined and present in the
intrinsics collection, the pose id is defined and present in the pose
collection, and — for a rig view — the rig sub-pose resolves and its
status is not `UNINITIALIZED`. -/
theorem IsPoseAndIntrinsicDefined_spec (s : SfMData) (view : Option View) :
    s.IsPoseAndIntrinsicDefined view = some true ↔
      ∃ v, view = some v ∧
        v.getIntrinsicId ≠ UndefinedIndexT ∧
        (s.intrinsics.lookup v.getIntrinsicId).isSome = true ∧
        v.getPoseId ≠ UndefinedIndexT ∧
        (s.poses.lookup v.getPoseId).isSome = true ∧
        (v.isPartOfRig = true →
          ∃ sp, s.getRigSubPose v = some sp ∧
            sp.status ≠ ERigSubPoseStatus.UNINITIALIZED) := by
  cases view with
  | none => simp [SfMData.IsPoseAndIntrinsicDefined]
  | some v =>
    simp only [SfMData.IsPoseAndIntrinsicDefined, Option.some.injEq]
    by_cases hi : v.getIntrinsicId = UndefinedIndexT
    · simp [hi]
    · by_cases hp : v.getPoseId = UndefinedIndexT
      · simp [hi, hp]
      · by_cases hr : v.isPartOfRig
        · cases hsp : s.getRigSubPose v with
          | none => simp [hi, hp, hr, hsp]
          | some sp =>
            by_cases hst : sp.status = ERigSubPoseStatus.UNINITIALIZED
            · simp [hi, hp, hr, hsp, hst]
            · simp [hi, hp, hr, hsp, hst, Bool.and_eq_true, and_comm]
        · simp [hi, hp, hr, Bool.and_eq_true, and_comm]

/-- C2: for a view whose pose id is present in the pose collection,
`getPose` returns the stored pose when the view is not part of a rig,
and the composition `subPose * rigPose` of the rig pose with the
camera's sub-pose when it is. -/
theorem getPose_spec (s : SfMData) (v : View) (p : Pose3)
    (hp : s.poses.lookup v.getPoseId = some p) :
    (v.isPartOfRig = false → s.getPose v = some p) ∧
    (v.isPartOfRig = true → ∀ sp, s.getRigSubPose v = some sp →
      s.getPose v = some (composePose sp.pose p)) := by
  constructor
  · intro h
    simp [SfMData.getPose, h, hp]
  · intro hr sp hsp
    simp [SfMData.getPose, hr, hp, hsp]

/-- C2 witness: in the concrete rig scene, `getPose` of the rig view is
the composition of the sub-pose with the rig pose. -/
theorem getPose_spec_witness :
    sceneW.getPose viewW = some (composePose spW.pose poseW1) :=
  (getPose_spec sceneW viewW poseW1 rfl).2 rfl spW rfl

/-- C9: `erasePose` removes exactly the pose entry keyed by the given
id when it exists (the rest of the scene untouched), and throws
`std::out_of_range` when it does not. -/
theorem erasePose_spec (s : SfMData) (poseId : IndexT)
    (hnd : (s.poses.map Prod.fst).Nodup) :
    ((s.poses.lookup poseId).isSome = true →
      ∃ s', s.erasePose poseId = Except.ok s' ∧
        s'.views = s.views ∧ s'.intrinsics = s.intrinsics ∧ s'.rigs = s.rigs ∧
        s'.poses.lookup poseId = none ∧
        (∀ k, k ≠ poseId → s'.poses.lookup k = s.poses.lookup k)) ∧
    (s.poses.lookup poseId = none →
      s.erasePose poseId =
        Except.error ("Can't erase unfind pose " ++ toString poseId)) := by
  constructor
  · intro hsome
    obtain ⟨q, hq⟩ := Option.isSome_iff_exists.mp hsome
    refine ⟨{ s with poses := s.poses.eraseP (fun kv => decide (kv.1 = poseId)) },
      ?_, rfl, rfl, rfl, ?_, ?_⟩
    · simp [SfMData.erasePose, hq]
    · exact lookup_eraseP_self s.poses poseId hnd
    · intro k hk
      exact lookup_eraseP_ne s.poses poseId k hk
  · intro hnone
    simp [SfMData.erasePose, hnone]

/-- C9 witness: erasing the only pose of the concrete rig scene
succeeds and empties the pose collection at that key. -/
theorem erasePose_spec_witness :
    (sceneW.poses.lookup 10).isSome = true ∧
    (∃ s', sceneW.erasePose 10 = Except.ok s' ∧
      s'.views = sceneW.views ∧ s'.intrinsics = sceneW.intrinsics ∧
      s'.rigs = sceneW.rigs ∧ s'.poses.lookup 10 = none ∧
      (∀ k, k ≠ 10 → s'.poses.lookup k = sceneW.poses.lookup k)) :=
  ⟨rfl, (erasePose_spec sceneW 10 (by decide)).1 rfl⟩

/-- C10: `setLocalBundleAdjustmentGraphDistance` is a complete no-op on
the engine state when the local-BA flag is unset, and records the
distance in the local-BA data only when the flag was set beforehand. -/
theorem setLocalBAGraphDistance_spec (e : Engine) (d : Nat) :
    (e.uselocalBundleAdjustment = false →
      setLocalBundleAdjustmentGraphDistance e d = e) ∧
    (e.uselocalBundleAdjustment = true →
      setLocalBundleAdjustmentGraphDistance e d =
        { e with localBA_data :=
            e.localBA_data.map (fun l => l.setGraphDistanceLimit d) }) := by
  constructor <;> intro h <;> simp [setLocalBundleAdjustmentGraphDistance, h]

/-- C10 witness: on a fresh engine (flag unset) the distance setter
changes nothing. -/
theorem setLocalBAGraphDistance_spec_witness :
    setLocalBundleAdjustmentGraphDistance mkEngine 7 = mkEngine :=
  (setLocalBAGraphDistance_spec mkEngine 7).1 rfl

/-- C4 counterexample: a freshly constructed engine, with no
strategy-selection call, does not run the local strategy during
iterations — its local-BA flag is false and the iteration runs the
global strategy. -/
theorem freshEngine_localBA_counterexample :
    ¬ iterationBAStrategy mkEngine = BAStrategy.localBA := by decide

/-- C4 (amended): the local strategy is opt-in — the iteration's bundle
adjustment is local exactly when `setUseLocalBundleAdjustmentStrategy
true` set the flag; a freshly constructed engine has the flag false and
performs global bundle adjustment. -/
theorem iterationBAStrategy_spec :
    mkEngine.uselocalBundleAdjustment = false ∧
    iterationBAStrategy mkEngine = BAStrategy.globalBA ∧
    (∀ e : Engine,
      iterationBAStrategy e = BAStrategy.localBA ↔
        e.uselocalBundleAdjustment = true) ∧
    (∀ e : Engine,
      iterationBAStrategy (setUseLocalBundleAdjustmentStrategy e true) =
        BAStrategy.localBA) := by
  refine ⟨rfl, rfl, fun e => ?_, fun e => ?_⟩
  · cases h : e.uselocalBundleAdjustment <;> simp [iterationBAStrategy, h]
  · simp [iterationBAStrategy, setUseLocalBundleAdjustmentStrategy]

/-- C5: the resection of a view is attempted only when the view has at
least the minimum number of 2D–3D correspondences, whose default is 30;
and a failed resection (few correspondences, no RANSAC model, or a
degenerate configuration) leaves the view in the remaining-candidate
pool. -/
theorem computeResection_spec (nbCorresp : IndexT → Nat)
    (ransac : IndexT → Option Pose3) (pool : List IndexT) (v : IndexT) :
    mkEngine.minPointsPerPose = 30 ∧
    (nbCorresp v < 30 →
      computeResection mkEngine.minPointsPerPose nbCorresp ransac v = none) ∧
    (30 ≤ nbCorresp v →
      computeResection mkEngine.minPointsPerPose nbCorresp ransac v = ransac v) ∧
    (computeResection mkEngine.minPointsPerPose nbCorresp ransac v = none →
      updatePoolAfterResection
        (computeResection mkEngine.minPointsPerPose nbCorresp ransac v) pool v =
        pool) := by
  refine ⟨rfl, fun h => ?_, fun h => ?_, fun h => ?_⟩
  · simp [computeResection, mkEngine, h]
  · simp [computeResection, mkEngine, Nat.not_lt.mpr h]
  · rw [h]
    rfl

/-- C5 witness: a view with only 5 correspondences is not estimated and
stays in the pool. -/
theorem computeResection_spec_witness :
    nbCorrespW 1 < 30 ∧
    computeResection mkEngine.minPointsPerPose nbCorrespW ransacW 1 = none ∧
    updatePoolAfterResection
      (computeResection mkEngine.minPointsPerPose nbCorrespW ransacW 1) [1, 2] 1 =
      [1, 2] := by
  have h := computeResection_spec nbCorrespW ransacW [1, 2] 1
  exact ⟨by decide, h.2.1 (by decide), h.2.2.2 (h.2.1 (by decide))⟩

/-- C3: a candidate is added as a landmark by the triangulation step
exactly when the robust solve succeeded and it passes both geometric
gates — positive depth in every contributing view and a pair of
contributing views subtending at least the minimum angle, whose default
is 3 degrees. -/
theorem triangulation_gates_spec (scene : SfMData) (angle : IndexT → IndexT → ℚ)
    (cands : List TriCandidate) (c : TriCandidate) :
    mkEngine.minAngleForTriangulation = 3 ∧
    (c ∈ triangulateAccepted scene angle mkEngine.minAngleForTriangulation cands ↔
      c ∈ cands ∧ c.robustOk = true ∧
      checkChieralities scene c.pt c.viewsId = true ∧
      checkAngles angle c.viewsId 3 = true) := by
  refine ⟨rfl, ?_⟩
  simp [triangulateAccepted, acceptCandidate, List.mem_filter,
    Bool.and_eq_true, and_assoc, mkEngine]

theorem filterLandmarkObs_idem (residual : IndexT → IndexT → ℚ) (precision : ℚ)
    (lmId : IndexT) (lm : Landmark) :
    filterLandmarkObs residual precision lmId
        (filterLandmarkObs residual precision lmId lm) =
      filterLandmarkObs residual precision lmId lm := by
  simp [filterLandmarkObs, List.filter_filter]

theorem map_eq_self_of_fix {α : Type} (f : α → α) (l : List α)
    (h : ∀ a ∈ l, f a = a) : l.map f = l := by
  induction l with
  | nil => rfl
  | cons a t ih =>
    simp [h a (List.mem_cons_self a t),
      ih (fun b hb => h b (List.mem_cons_of_mem a hb))]

/-- C6: the outlier filter is idempotent — running `removeOutliers`
again with the same thresholds on its own output removes zero
observations and zero landmarks and returns the structure unchanged
with count 0. -/
theorem removeOutliers_idempotent (residual angle : IndexT → IndexT → ℚ)
    (precision minAngle : ℚ) (minObs : Nat) (lms : List (IndexT × Landmark)) :
    removeOutliers residual angle precision minAngle minObs
        (removeOutliers residual angle precision minAngle minObs lms).1 =
      ((removeOutliers residual angle precision minAngle minObs lms).1, 0) := by
  set f := fun kl : IndexT × Landmark =>
    (kl.1, filterLandmarkObs residual precision kl.1 kl.2) with hf
  set p := fun kl : IndexT × Landmark =>
    landmarkKept angle minAngle minObs kl.2 with hp
  have hfst : (removeOutliers residual angle precision minAngle minObs lms).1 =
      (lms.map f).filter p := rfl
  have hfix : ∀ kl ∈ (lms.map f).filter p, f kl = kl := by
    intro kl hkl
    obtain ⟨y, _, rfl⟩ := List.mem_map.mp (List.mem_of_mem_filter hkl)
    simp [hf, filterLandmarkObs_idem]
  have hmap : ((lms.map f).filter p).map f = (lms.map f).filter p :=
    map_eq_self_of_fix f _ hfix
  have hkeep : ((lms.map f).filter p).filter p = (lms.map f).filter p :=
    List.filter_eq_self.mpr (fun a ha => List.of_mem_filter ha)
  rw [hfst]
  show ((((lms.map f).filter p).map f).filter p,
      (totalObs ((lms.map f).filter p) - totalObs (((lms.map f).filter p).map f)) +
        ((((lms.map f).filter p).map f).length -
          ((((lms.map f).filter p).map f).filter p).length)) = _
  rw [hmap, hkeep]
  simp

theorem iterApply_reconstructed_le (resect : LoopState → List IndexT)
    (st : LoopState) :
    st.reconstructed.length ≤ (iterApply resect st).reconstructed.length := by
  simp [iterApply]

theorem loopIter_reconstructed_le (resect : LoopState → List IndexT) (fuel : Nat) :
    ∀ st : LoopState,
      st.reconstructed.length ≤ (loopIter resect fuel st).2.reconstructed.length := by
  induction fuel with
  | zero => intro st; exact Nat.le_refl _
  | succ n ih =>
    intro st
    simp only [loopIter]
    by_cases h : iterAdded resect st = []
    · rw [if_pos h]
    · rw [if_neg h]
      exact Nat.le_trans (iterApply_reconstructed_le resect st)
        (ih (iterApply resect st))

theorem loopIter_count_le (resect : LoopState → List IndexT) (fuel : Nat) :
    ∀ st : LoopState, (loopIter resect fuel st).1 ≤ fuel := by
  induction fuel with
  | zero => intro st; exact Nat.le_refl 0
  | succ n ih =>
    intro st
    simp only [loopIter]
    by_cases h : iterAdded resect st = []
    · rw [if_pos h]; exact Nat.succ_le_succ (Nat.zero_le n)
    · rw [if_neg h]
      exact Nat.succ_le_succ (ih (iterApply resect st))

theorem iterApply_remaining_lt (resect : LoopState → List IndexT)
    (st : LoopState) (h : iterAdded resect st ≠ []) :
    (iterApply resect st).remaining.length < st.remaining.length := by
  obtain ⟨x, hx⟩ := List.exists_mem_of_ne_nil (iterAdded resect st) h
  have hxr : x ∈ st.remaining := by
    have := List.mem_dedup.mp hx
    have := List.of_mem_filter this
    simpa using this
  show (st.remaining.filter (fun v => decide (v ∉ iterAdded resect st))).length <
    st.remaining.length
  exact List.length_filter_lt_length_iff_exists.mpr ⟨x, hxr, by simpa using hx⟩

theorem loopIter_fixpoint (resect : LoopState → List IndexT) (fuel : Nat) :
    ∀ st : LoopState, st.remaining.length < fuel →
      iterAdded resect (loopIter resect fuel st).2 = [] := by
  induction fuel with
  | zero => intro st h; exact absurd h (Nat.not_lt_zero _)
  | succ n ih =>
    intro st h
    simp only [loopIter]
    by_cases ha : iterAdded resect st = []
    · rw [if_pos ha]; exact ha
    · rw [if_neg ha]
      refine ih (iterApply resect st) ?_
      have h1 := iterApply_remaining_lt resect st ha
      omega

/-- C7: across iterations of the incremental reconstruction loop the
number of reconstructed views never decreases, an iteration adding zero
new poses ends the loop, and the total number of iterations is bounded
by the total number of views. -/
theorem incrementalReconstruction_progress (resect : LoopState → List IndexT)
    (st : LoopState) (h : 1 ≤ st.reconstructed.length) :
    (∀ s : LoopState,
      s.reconstructed.length ≤ (iterApply resect s).reconstructed.length) ∧
    st.reconstructed.length ≤
      (incrementalReconstruction resect st).2.reconstructed.length ∧
    iterAdded resect (incrementalReconstruction resect st).2 = [] ∧
    (incrementalReconstruction resect st).1 ≤
      st.reconstructed.length + st.remaining.length := by
  refine ⟨iterApply_reconstructed_le resect,
    loopIter_reconstructed_le resect _ st,
    loopIter_fixpoint resect _ st (Nat.lt_succ_self _), ?_⟩
  have := loopIter_count_le resect (st.remaining.length + 1) st
  show (loopIter resect (st.remaining.length + 1) st).1 ≤ _
  omega

/-- C7 witness: on the concrete state with one reconstructed and two
remaining views, the loop keeps the reconstructed count non-decreasing
and runs at most three iterations. -/
theorem incrementalReconstruction_progress_witness :
    stW.reconstructed.length ≤
      (incrementalReconstruction resectW stW).2.reconstructed.length ∧
    (incrementalReconstruction resectW stW).1 ≤
      stW.reconstructed.length + stW.remaining.length :=
  ⟨(incrementalReconstruction_progress resectW stW (by decide)).2.1,
   (incrementalReconstruction_progress resectW stW (by decide)).2.2.2⟩

/-- C8: when initial pair selection succeeds, the seed scene fixes the
first view's pose at the identity (rotation = identity, translation =
0) and the second view's pose at the estimated relative pose, and the
used pair is the first of the candidate list (tried in descending score
order) for which the two-view estimation yields a valid structure. -/
theorem createInitialReconstruction_spec (relPose : Pair → Option Pose3)
    (scene : SfMData) (cs : List Pair) (p : Pair) (s : SfMData)
    (hne : p.1 ≠ p.2)
    (h : createInitialReconstruction relPose scene cs = some (p, s)) :
    (∃ rel, relPose p = some rel ∧ s.poses.lookup p.2 = some rel) ∧
    s.poses.lookup p.1 = some idPose ∧
    idPose.rotation = mat3id ∧ idPose.center = (fun _ => 0) ∧
    ∃ pre post, cs = pre ++ p :: post ∧ ∀ q ∈ pre, relPose q = none := by
  induction cs with
  | nil => exact absurd h (by simp [createInitialReconstruction])
  | cons c rest ih =>
    rw [createInitialReconstruction] at h
    cases hc : makeInitialPair3D relPose scene c with
    | some s0 =>
      rw [hc] at h
      have hps : p = c ∧ s = s0 := by
        have := Option.some.inj h
        exact ⟨(Prod.mk.inj this).1.symm, (Prod.mk.inj this).2.symm⟩
      obtain ⟨hpc, hss⟩ := hps
      subst hpc
      subst hss
      rw [makeInitialPair3D] at hc
      cases hrel : relPose p with
      | none => rw [hrel] at hc; exact absurd hc (by simp)
      | some rel =>
        rw [hrel] at hc
        have hs : s = (scene.setAbsolutePose p.1 idPose).setAbsolutePose p.2 rel :=
          (Option.some.inj hc).symm
        subst hs
        refine ⟨⟨rel, rfl, ?_⟩, ?_, rfl, rfl, [], rest, rfl, by simp⟩
        · show (SfMData.insertAssoc p.2 rel
            (SfMData.insertAssoc p.1 idPose scene.poses)).lookup p.2 = some rel
          simp [SfMData.insertAssoc, List.lookup]
        · show (SfMData.insertAssoc p.2 rel
            (SfMData.insertAssoc p.1 idPose scene.poses)).lookup p.1 = some idPose
          rw [SfMData.insertAssoc]
          have hb : (p.1 == p.2) = false := beq_eq_false_iff_ne.mpr hne
          simp only [List.lookup, hb]
          rw [lookup_eraseP_ne _ p.2 p.1 hne]
          simp [SfMData.insertAssoc, List.lookup]
    | none =>
      rw [hc] at h
      obtain ⟨hex, hlk, hrot, hcen, pre, post, hcs, hpre⟩ := ih h
      have hrelc : relPose c = none := by
        rw [makeInitialPair3D] at hc
        cases hrc : relPose c with
        | none => rfl
        | some rel => rw [hrc] at hc; exact absurd hc (by simp)
      refine ⟨hex, hlk, hrot, hcen, c :: pre, post, by rw [hcs]; rfl, ?_⟩
      intro q hq
      rcases List.mem_cons.mp hq with hq1 | hq2
      · rw [hq1]; exact hrelc
      · exact hpre q hq2

/-- C8 witness: with candidates `[(3,4), (1,2)]` where only `(1,2)`
yields a valid structure, selection returns `(1,2)` and the seed scene
holds the identity pose for view 1 and the relative pose for view 2. -/
theorem createInitialReconstruction_spec_witness :
    seedW.poses.lookup 1 = some idPose ∧
    seedW.poses.lookup 2 = some poseW2 :=
  ⟨(createInitialReconstruction_spec relPoseW sceneEmpty csW (1, 2) seedW
      (by decide) rfl).2.1,
   by
    have h := (createInitialReconstruction_spec relPoseW sceneEmpty csW (1, 2) seedW
      (by decide) rfl).1
    obtain ⟨rel, hrel, hlk⟩ := h
    have : rel = poseW2 := by
      have := hrel
      simp [relPoseW] at this
      exact this.symm
    rw [← this]
    exact hlk⟩

end AV
